import Mathlib

/-!
Shallow embedding of the Orb particle simulation over the real numbers.

The definitions below are transcribed from `src/Math.hpp` (`Vec2`, `Color`),
`src/Particle.hpp` (`Particle`), `src/GravityWell.hpp` (`GravityWell`) and
`src/Simulation.cpp` / `src/Simulation.hpp` (`Simulation::update`,
`Simulation::clear`, `Simulation::addGravityWell`).  Machine floats are
modelled as exact reals; the in-place mutation of the particle vector in
`update` is modelled by explicit list transformations in the same order as
the source loops.
-/

namespace Orb

noncomputable section

/-- 2D vector (`Vec2` in Math.hpp). -/
structure Vec2 where
  x : ℝ
  y : ℝ

instance : Add Vec2 := ⟨fun a b => ⟨a.x + b.x, a.y + b.y⟩⟩

instance : Sub Vec2 := ⟨fun a b => ⟨a.x - b.x, a.y - b.y⟩⟩

/-- `Vec2::operator*(float)`: scalar multiple. -/
instance : HMul Vec2 ℝ Vec2 := ⟨fun v s => ⟨v.x * s, v.y * s⟩⟩

@[simp] theorem Vec2.add_x (a b : Vec2) : (a + b).x = a.x + b.x := rfl

@[simp] theorem Vec2.add_y (a b : Vec2) : (a + b).y = a.y + b.y := rfl

@[simp] theorem Vec2.sub_x (a b : Vec2) : (a - b).x = a.x - b.x := rfl

@[simp] theorem Vec2.sub_y (a b : Vec2) : (a - b).y = a.y - b.y := rfl

@[simp] theorem Vec2.smul_x (a : Vec2) (s : ℝ) : (a * s).x = a.x * s := rfl

@[simp] theorem Vec2.smul_y (a : Vec2) (s : ℝ) : (a * s).y = a.y * s := rfl

@[simp] theorem Vec2.mk_add_mk (a b c d : ℝ) :
    (⟨a, b⟩ : Vec2) + (⟨c, d⟩ : Vec2) = ⟨a + c, b + d⟩ := rfl

@[simp] theorem Vec2.mk_sub_mk (a b c d : ℝ) :
    (⟨a, b⟩ : Vec2) - (⟨c, d⟩ : Vec2) = ⟨a - c, b - d⟩ := rfl

@[simp] theorem Vec2.mk_smul (a b s : ℝ) :
    (⟨a, b⟩ : Vec2) * s = (⟨a * s, b * s⟩ : Vec2) := rfl

/-- `Vec2::dot`. -/
def Vec2.dot (a b : Vec2) : ℝ := a.x * b.x + a.y * b.y

/-- `Vec2::lengthSq`. -/
def Vec2.lengthSq (v : Vec2) : ℝ := v.x * v.x + v.y * v.y

/-- `Vec2::length`. -/
def Vec2.length (v : Vec2) : ℝ := Real.sqrt v.lengthSq

/-- `Vec2::normalized`: unit vector, or `(0,0)` when the length is zero. -/
def Vec2.normalized (v : Vec2) : Vec2 :=
  if v.length ≤ 0 then ⟨0, 0⟩ else ⟨v.x / v.length, v.y / v.length⟩

/-- RGBA color (`Color` in Math.hpp). -/
structure Color where
  r : ℝ
  g : ℝ
  b : ℝ
  a : ℝ

/-- `Particle::MAX_TRAIL_LENGTH`. -/
def MAX_TRAIL_LENGTH : Nat := 60

/-- `Particle` (Particle.hpp): position, velocity, radius, color and the
trail ring buffer (fixed array of `MAX_TRAIL_LENGTH` positions plus the
length counter and the write index). -/
structure Particle where
  pos : Vec2
  vel : Vec2
  radius : ℝ
  color : Color
  trail : List Vec2
  trailLength : Nat
  trailIndex : Nat

/-- The `Particle` constructor: the trail buffer is filled with the spawn
position, `trailLength` starts at 1, `trailIndex` at 0. -/
def mkParticle (pos vel : Vec2) (radius : ℝ) (color : Color) : Particle :=
  ⟨pos, vel, radius, color, List.replicate MAX_TRAIL_LENGTH pos, 1, 0⟩

/-- `GravityWell` (GravityWell.hpp). -/
structure GravityWell where
  pos : Vec2
  strength : ℝ
  minRadius : ℝ

/-- The `GravityWell(pos)` constructor with its default field values. -/
def mkGravityWell (pos : Vec2) : GravityWell := ⟨pos, 1200000, 8⟩

/-- `Simulation` (Simulation.hpp): world parameters plus the particle and
gravity-well collections. -/
structure Simulation where
  worldW : ℝ
  worldH : ℝ
  restitution : ℝ
  drag : ℝ
  particles : List Particle
  gravityWells : List GravityWell

/-- `MAX_DT = 1.0f / 30.0f` (Simulation.cpp). -/
def MAX_DT : ℝ := 1 / 30

/-- `TINY_SPEED = 0.5f` (Simulation.cpp). -/
def TINY_SPEED : ℝ := 1 / 2

/-- `MIN_SEPARATION = 1.0e-6f` (Simulation.cpp); the same value appears as
the literal `1.0e-6f` epsilon of the gravity loop. -/
def MIN_SEPARATION : ℝ := 1 / 1000000

/-- `GRAVITY_PULL = 400.0f` (Simulation.cpp). -/
def GRAVITY_PULL : ℝ := 400

/-- `GRAVITY_RANGE = 2000.0f` (Simulation.cpp). -/
def GRAVITY_RANGE : ℝ := 2000

/-- Velocity increment one gravity well contributes to a particle at
position `p` during step 0 of `update` (the inner loop body, lines 26-35 of
Simulation.cpp). -/
def gravityDelta (dt : ℝ) (p : Vec2) (well : GravityWell) : Vec2 :=
  let dx := well.pos.x - p.x
  let dy := well.pos.y - p.y
  let distSq := dx * dx + dy * dy
  if distSq < MIN_SEPARATION then ⟨0, 0⟩
  else
    let dist := Real.sqrt distSq
    if dist > GRAVITY_RANGE then ⟨0, 0⟩
    else ⟨dx * (1 / dist) * GRAVITY_PULL * dt, dy * (1 / dist) * GRAVITY_PULL * dt⟩

/-- Step 0 of `update` for one particle: accumulate the pull of every well
into the velocity (the particle's position is not written in this step). -/
def gravityStep (dt : ℝ) (wells : List GravityWell) (p : Particle) : Particle :=
  { p with vel := wells.foldl (fun v w => v + gravityDelta dt p.pos w) p.vel }

/-- Step 1 of `update`: `p.pos += p.vel * dt`. -/
def integrateStep (dt : ℝ) (p : Particle) : Particle :=
  { p with pos := p.pos + p.vel * dt }

/-- The collision normal of step 2 (line 58 of Simulation.cpp): the
normalized separation when the distance exceeds `MIN_SEPARATION`, else the
fallback `(1,0)`. -/
def contactNormal (a b : Particle) : Vec2 :=
  if (b.pos - a.pos).length > MIN_SEPARATION then (b.pos - a.pos).normalized else ⟨1, 0⟩

/-- The body of the pairwise collision loop (lines 49-77 of Simulation.cpp):
skip separated pairs, else push the two particles to exact contact split by
mass (`m = r²`) and apply the restitution impulse along the normal. -/
def resolvePair (e : ℝ) (a b : Particle) : Particle × Particle :=
  let delta := b.pos - a.pos
  let dist := delta.length
  let sumR := a.radius + b.radius
  if dist ≥ sumR then (a, b)
  else
    let n := contactNormal a b
    let m1 := a.radius * a.radius
    let m2 := b.radius * b.radius
    let totalMass := m1 + m2
    let overlap := sumR - dist
    let a1 := { a with pos := a.pos - n * (overlap * (m2 / totalMass)) }
    let b1 := { b with pos := b.pos + n * (overlap * (m1 / totalMass)) }
    let v1n := Vec2.dot a1.vel n
    let v2n := Vec2.dot b1.vel n
    let impulse := (1 + e) * (v1n - v2n) / totalMass
    ({ a1 with vel := ⟨a1.vel.x - impulse * m2 * n.x, a1.vel.y - impulse * m2 * n.y⟩ },
     { b1 with vel := ⟨b1.vel.x + impulse * m1 * n.x, b1.vel.y + impulse * m1 * n.y⟩ })

/-- The index pairs `(i, j)`, `i < j`, in the order the nested loops of
step 2 visit them. -/
def pairIndices (n : Nat) : List (Nat × Nat) :=
  (List.range n).flatMap fun i => ((List.range n).filter fun j => i < j).map fun j => (i, j)

/-- Placeholder particle for out-of-range list reads (never hit: the loop
indices of `pairIndices` are in range). -/
def pDummy : Particle := ⟨⟨0, 0⟩, ⟨0, 0⟩, 0, ⟨1, 1, 1, 1⟩, [], 0, 0⟩

/-- One iteration of the collision loop on the particle list: read the pair,
resolve it, write both particles back in place. -/
def updPair (e : ℝ) (ps : List Particle) (ij : Nat × Nat) : List Particle :=
  let a := ps.getD ij.1 pDummy
  let b := ps.getD ij.2 pDummy
  let r := resolvePair e a b
  (ps.set ij.1 r.1).set ij.2 r.2

/-- Step 2 of `update`: the full pairwise collision pass. -/
def collisionPass (e : ℝ) (ps : List Particle) : List Particle :=
  (pairIndices ps.length).foldl (updPair e) ps

/-- Drag part of step 3: scale velocity by `1 - drag*dt` when `drag > 0`. -/
def dragStep (drag dt : ℝ) (p : Particle) : Particle :=
  if drag > 0 then
    { p with vel := ⟨p.vel.x * (1 - drag * dt), p.vel.y * (1 - drag * dt)⟩ }
  else p

/-- Wall part of step 3: the four sequential wall checks (lines 93-108 of
Simulation.cpp), each repositioning to tangency and re-signing the velocity
component scaled by restitution. -/
def wallStep (W H e : ℝ) (p : Particle) : Particle :=
  let r := p.radius
  let p1 := if p.pos.x - r < 0 then
      { p with pos := ⟨r, p.pos.y⟩, vel := ⟨|p.vel.x| * e, p.vel.y⟩ } else p
  let p2 := if p1.pos.x + r > W then
      { p1 with pos := ⟨W - r, p1.pos.y⟩, vel := ⟨-|p1.vel.x| * e, p1.vel.y⟩ } else p1
  let p3 := if p2.pos.y - r < 0 then
      { p2 with pos := ⟨p2.pos.x, r⟩, vel := ⟨p2.vel.x, |p2.vel.y| * e⟩ } else p2
  if p3.pos.y + r > H then
      { p3 with pos := ⟨p3.pos.x, H - r⟩, vel := ⟨p3.vel.x, -|p3.vel.y| * e⟩ } else p3

/-- Tiny-speed clamp of step 3: zero the velocity when slower than
`TINY_SPEED`, skipped entirely when any gravity well exists. -/
def clampStep (skipClamp : Bool) (p : Particle) : Particle :=
  let speedSq := p.vel.x * p.vel.x + p.vel.y * p.vel.y
  if skipClamp = false ∧ speedSq < TINY_SPEED * TINY_SPEED then
    { p with vel := ⟨0, 0⟩ }
  else p

/-- Step 3 of `update` for one particle: drag, then walls, then the clamp. -/
def finalizeStep (W H e drag dt : ℝ) (skipClamp : Bool) (p : Particle) : Particle :=
  clampStep skipClamp (wallStep W H e (dragStep drag dt p))

/-- `Simulation::update` (Simulation.cpp lines 20-119). -/
def update (s : Simulation) (dt : ℝ) : Simulation :=
  let dt := min dt MAX_DT
  let skipClamp := !s.gravityWells.isEmpty
  let ps0 := s.particles.map (gravityStep dt s.gravityWells)
  let ps1 := ps0.map (integrateStep dt)
  let ps2 := collisionPass s.restitution ps1
  let ps3 := ps2.map (finalizeStep s.worldW s.worldH s.restitution s.drag dt skipClamp)
  { s with particles := ps3 }

/-- `Simulation::clear`. -/
def clear (s : Simulation) : Simulation :=
  { s with particles := [], gravityWells := [] }

/-- `Simulation::addGravityWell`. -/
def addGravityWell (s : Simulation) (x y : ℝ) : Simulation :=
  { s with gravityWells := s.gravityWells ++ [mkGravityWell ⟨x, y⟩] }

/-- A simulation with the default parameters of Simulation.hpp and no
bodies or wells. -/
def defaultSim : Simulation := ⟨1280, 720, 9 / 10, 0, [], []⟩

/-- Evaluation helper: the square root of a given perfect square. -/
theorem sqrt_eval (b : ℝ) {a : ℝ} (hb : 0 ≤ b) (h : b * b = a) : Real.sqrt a = b := by
  rw [← h, Real.sqrt_mul_self hb]

@[ext] theorem Vec2.ext {a b : Vec2} (hx : a.x = b.x) (hy : a.y = b.y) : a = b := by
  cases a; cases b; cases hx; cases hy; rfl

theorem lengthSq_nonneg (v : Vec2) : 0 ≤ v.lengthSq :=
  add_nonneg (mul_self_nonneg _) (mul_self_nonneg _)

theorem length_nonneg (v : Vec2) : 0 ≤ v.length := Real.sqrt_nonneg _

theorem length_mul_self (v : Vec2) : v.length * v.length = v.lengthSq :=
  Real.mul_self_sqrt (lengthSq_nonneg v)

/-- A vector of positive length normalizes to a unit vector. -/
theorem normalized_self_dot (v : Vec2) (h : 0 < v.length) :
    Vec2.dot v.normalized v.normalized = 1 := by
  have hL : v.length ≠ 0 := ne_of_gt h
  have hsq : v.length * v.length = v.lengthSq := length_mul_self v
  unfold Vec2.normalized
  rw [if_neg (not_le.mpr h)]
  unfold Vec2.dot Vec2.lengthSq at *
  field_simp
  linarith [hsq]

/-- The contact normal of the collision branch is always a unit vector
(both the normalized-separation branch and the `(1,0)` fallback). -/
theorem contactNormal_unit (a b : Particle) :
    Vec2.dot (contactNormal a b) (contactNormal a b) = 1 := by
  unfold contactNormal
  split
  · refine normalized_self_dot _ (lt_trans ?_ (by assumption))
    norm_num [MIN_SEPARATION]
  · norm_num [Vec2.dot]

/-- A detected collision forces a positive total mass `m₁ + m₂ = r₁² + r₂²`:
the distance is nonnegative, so `r₁ + r₂ > 0`, so not both radii are zero. -/
theorem totalMass_pos_of_collision {a b : Particle}
    (hcol : (b.pos - a.pos).length < a.radius + b.radius) :
    0 < a.radius * a.radius + b.radius * b.radius := by
  have h0 : 0 ≤ (b.pos - a.pos).length := length_nonneg _
  have hsum : 0 < a.radius + b.radius := lt_of_le_of_lt h0 hcol
  rcases lt_trichotomy a.radius 0 with h | h | h
  · nlinarith
  · nlinarith
  · nlinarith

/-- C1: for every pair resolved by the impulse step (with the world's
restitution `e`), the post-impulse relative velocity along the contact
normal is `-e` times the pre-impulse one, and the mass-weighted momentum
along the normal (`m = r²`) is conserved exactly. -/
theorem resolvePair_restitution_and_momentum (e : ℝ) (a b : Particle)
    (hcol : (b.pos - a.pos).length < a.radius + b.radius) :
    Vec2.dot (resolvePair e a b).1.vel (contactNormal a b) -
        Vec2.dot (resolvePair e a b).2.vel (contactNormal a b) =
      -e * (Vec2.dot a.vel (contactNormal a b) - Vec2.dot b.vel (contactNormal a b)) ∧
    a.radius * a.radius * Vec2.dot (resolvePair e a b).1.vel (contactNormal a b) +
        b.radius * b.radius * Vec2.dot (resolvePair e a b).2.vel (contactNormal a b) =
      a.radius * a.radius * Vec2.dot a.vel (contactNormal a b) +
        b.radius * b.radius * Vec2.dot b.vel (contactNormal a b) := by
  have hM : 0 < a.radius * a.radius + b.radius * b.radius :=
    totalMass_pos_of_collision hcol
  have hMne : a.radius * a.radius + b.radius * b.radius ≠ 0 := ne_of_gt hM
  have hn : (contactNormal a b).x * (contactNormal a b).x +
      (contactNormal a b).y * (contactNormal a b).y = 1 := by
    have := contactNormal_unit a b
    simpa [Vec2.dot] using this
  have himp : (1 + e) *
        ((a.vel.x * (contactNormal a b).x + a.vel.y * (contactNormal a b).y) -
          (b.vel.x * (contactNormal a b).x + b.vel.y * (contactNormal a b).y)) /
        (a.radius * a.radius + b.radius * b.radius) *
        (a.radius * a.radius + b.radius * b.radius) =
      (1 + e) *
        ((a.vel.x * (contactNormal a b).x + a.vel.y * (contactNormal a b).y) -
          (b.vel.x * (contactNormal a b).x + b.vel.y * (contactNormal a b).y)) :=
    div_mul_cancel₀ _ hMne
  simp only [resolvePair]
  rw [if_neg (not_le.mpr hcol)]
  simp only [Vec2.dot]
  constructor
  · linear_combination (-1 : ℝ) * himp -
      ((1 + e) *
        ((a.vel.x * (contactNormal a b).x + a.vel.y * (contactNormal a b).y) -
          (b.vel.x * (contactNormal a b).x + b.vel.y * (contactNormal a b).y)) /
        (a.radius * a.radius + b.radius * b.radius) *
        (a.radius * a.radius + b.radius * b.radius)) * hn
  · ring

/-- Left particle of the C1 witness collision. -/
def paC1 : Particle := ⟨⟨0, 0⟩, ⟨3, 0⟩, 1, ⟨1, 1, 1, 1⟩, [], 0, 0⟩

/-- Right particle of the C1 witness collision. -/
def pbC1 : Particle := ⟨⟨1, 0⟩, ⟨0, 0⟩, 1, ⟨1, 1, 1, 1⟩, [], 0, 0⟩

/-- Witness for C1: two unit-radius particles one apart (distance 1 < 2). -/
theorem resolvePair_restitution_and_momentum_witness :
    (pbC1.pos - paC1.pos).length < paC1.radius + pbC1.radius ∧
    (Vec2.dot (resolvePair (9 / 10) paC1 pbC1).1.vel (contactNormal paC1 pbC1) -
        Vec2.dot (resolvePair (9 / 10) paC1 pbC1).2.vel (contactNormal paC1 pbC1) =
      -(9 / 10) * (Vec2.dot paC1.vel (contactNormal paC1 pbC1) -
        Vec2.dot pbC1.vel (contactNormal paC1 pbC1)) ∧
      paC1.radius * paC1.radius *
          Vec2.dot (resolvePair (9 / 10) paC1 pbC1).1.vel (contactNormal paC1 pbC1) +
        pbC1.radius * pbC1.radius *
          Vec2.dot (resolvePair (9 / 10) paC1 pbC1).2.vel (contactNormal paC1 pbC1) =
      paC1.radius * paC1.radius * Vec2.dot paC1.vel (contactNormal paC1 pbC1) +
        pbC1.radius * pbC1.radius * Vec2.dot pbC1.vel (contactNormal paC1 pbC1)) := by
  have hlen : (pbC1.pos - paC1.pos).length < paC1.radius + pbC1.radius := by
    show Real.sqrt ((1 - 0) * (1 - 0) + (0 - 0) * (0 - 0)) < 1 + 1
    rw [sqrt_eval 1 (by norm_num) (by norm_num)]
    norm_num
  exact ⟨hlen, resolvePair_restitution_and_momentum (9 / 10) paC1 pbC1 hlen⟩

/-- Scalar core of the C7 magnitude computation. -/
theorem pull_magnitude (dx dy g dt s : ℝ) (hg : 0 ≤ g) (hdt : 0 ≤ dt)
    (hs : s = Real.sqrt (dx * dx + dy * dy)) (hpos : 0 < dx * dx + dy * dy) :
    Real.sqrt (dx * (1 / s) * g * dt * (dx * (1 / s) * g * dt) +
      dy * (1 / s) * g * dt * (dy * (1 / s) * g * dt)) = g * dt := by
  have hspos : 0 < s := by rw [hs]; exact Real.sqrt_pos.mpr hpos
  have hsne : s ≠ 0 := ne_of_gt hspos
  have hmul : s * s = dx * dx + dy * dy := by
    rw [hs]; exact Real.mul_self_sqrt hpos.le
  refine sqrt_eval (g * dt) (mul_nonneg hg hdt) ?_
  field_simp
  linear_combination (g * dt * (g * dt)) * hmul

/-- C7: within range, one gravity well adds a velocity increment of
magnitude exactly `GRAVITY_PULL * dt` pointing from the body toward the
well, independent of the well's `strength` and `minRadius` fields; pairs
closer than the epsilon or beyond `GRAVITY_RANGE` contribute nothing. -/
theorem gravityDelta_constant_pull (dt : ℝ) (p : Vec2) (well : GravityWell) :
    (0 ≤ dt → MIN_SEPARATION ≤ (well.pos - p).lengthSq →
      (well.pos - p).length ≤ GRAVITY_RANGE →
      (gravityDelta dt p well).length = GRAVITY_PULL * dt ∧
      gravityDelta dt p well = (well.pos - p).normalized * (GRAVITY_PULL * dt)) ∧
    (∀ st mr : ℝ, gravityDelta dt p ⟨well.pos, st, mr⟩ = gravityDelta dt p well) ∧
    ((well.pos - p).lengthSq < MIN_SEPARATION → gravityDelta dt p well = ⟨0, 0⟩) ∧
    (GRAVITY_RANGE < (well.pos - p).length → gravityDelta dt p well = ⟨0, 0⟩) := by
  refine ⟨fun hdt h1 h2 => ?_, fun st mr => rfl, fun h => ?_, fun h => ?_⟩
  · have hpos : (0 : ℝ) < (well.pos - p).lengthSq := by
      have : (0 : ℝ) < MIN_SEPARATION := by norm_num [MIN_SEPARATION]
      linarith
    have hpos' : (0 : ℝ) < (well.pos.x - p.x) * (well.pos.x - p.x) +
        (well.pos.y - p.y) * (well.pos.y - p.y) := hpos
    have hlpos : 0 < (well.pos - p).length := by
      rw [Vec2.length]; exact Real.sqrt_pos.mpr hpos
    have h1' : MIN_SEPARATION ≤ (well.pos.x - p.x) * (well.pos.x - p.x) +
        (well.pos.y - p.y) * (well.pos.y - p.y) := h1
    have h2' : Real.sqrt ((well.pos.x - p.x) * (well.pos.x - p.x) +
        (well.pos.y - p.y) * (well.pos.y - p.y)) ≤ GRAVITY_RANGE := h2
    simp only [gravityDelta]
    rw [if_neg (not_lt.mpr h1'), if_neg (not_lt.mpr h2')]
    constructor
    · show Real.sqrt _ = _
      exact pull_magnitude (well.pos.x - p.x) (well.pos.y - p.y) GRAVITY_PULL dt _
        (by norm_num [GRAVITY_PULL]) hdt rfl hpos'
    · unfold Vec2.normalized
      rw [if_neg (not_le.mpr hlpos)]
      refine Vec2.ext ?_ ?_ <;>
        simp only [Vec2.smul_x, Vec2.smul_y, Vec2.sub_x, Vec2.sub_y,
          Vec2.length, Vec2.lengthSq] <;>
        ring
  · have h' : (well.pos.x - p.x) * (well.pos.x - p.x) +
        (well.pos.y - p.y) * (well.pos.y - p.y) < MIN_SEPARATION := h
    simp only [gravityDelta]
    rw [if_pos h']
  · have h' : Real.sqrt ((well.pos.x - p.x) * (well.pos.x - p.x) +
        (well.pos.y - p.y) * (well.pos.y - p.y)) > GRAVITY_RANGE := h
    simp only [gravityDelta]
    split_ifs <;> rfl

/-- Witness for C7: body at the origin, well at `(30,40)` (distance 50),
`dt = 1/2`: the added velocity has magnitude `200 = 400 * (1/2)`. -/
theorem gravityDelta_constant_pull_witness :
    (0 : ℝ) ≤ 1 / 2 ∧
    MIN_SEPARATION ≤ ((mkGravityWell ⟨30, 40⟩).pos - (⟨0, 0⟩ : Vec2)).lengthSq ∧
    ((mkGravityWell ⟨30, 40⟩).pos - (⟨0, 0⟩ : Vec2)).length ≤ GRAVITY_RANGE ∧
    (gravityDelta (1 / 2) ⟨0, 0⟩ (mkGravityWell ⟨30, 40⟩)).length = GRAVITY_PULL * (1 / 2) := by
  have h1 : (0 : ℝ) ≤ 1 / 2 := by norm_num
  have h2 : MIN_SEPARATION ≤ ((mkGravityWell ⟨30, 40⟩).pos - (⟨0, 0⟩ : Vec2)).lengthSq := by
    show MIN_SEPARATION ≤ (30 - 0) * (30 - 0) + (40 - 0) * (40 - 0)
    norm_num [MIN_SEPARATION]
  have h3 : ((mkGravityWell ⟨30, 40⟩).pos - (⟨0, 0⟩ : Vec2)).length ≤ GRAVITY_RANGE := by
    show Real.sqrt ((30 - 0) * (30 - 0) + (40 - 0) * (40 - 0)) ≤ GRAVITY_RANGE
    rw [sqrt_eval 50 (by norm_num) (by norm_num)]
    norm_num [GRAVITY_RANGE]
  exact ⟨h1, h2, h3,
    ((gravityDelta_constant_pull (1 / 2) ⟨0, 0⟩ (mkGravityWell ⟨30, 40⟩)).1 h1 h2 h3).1⟩

/-- C5: for every world state and every `dt > 1/30`, `update dt` produces
exactly the same post-state as `update (1/30)`: the excess time is
discarded. -/
theorem update_clamps_dt (s : Simulation) (dt : ℝ) (h : MAX_DT < dt) :
    update s dt = update s MAX_DT := by
  unfold update
  rw [min_eq_right h.le, min_self]

/-- Witness for C5 at `dt = 1`. -/
theorem update_clamps_dt_witness :
    MAX_DT < 1 ∧ update defaultSim 1 = update defaultSim MAX_DT :=
  ⟨by norm_num [MAX_DT], update_clamps_dt defaultSim 1 (by norm_num [MAX_DT])⟩

/-- C8: `clear` removes all bodies and wells and is idempotent, and
`update` on a world with no bodies mutates nothing. -/
theorem clear_empties_and_update_empty_noop (s : Simulation) (dt : ℝ) :
    (clear s).particles = [] ∧ (clear s).gravityWells = [] ∧
    clear (clear s) = clear s ∧ (s.particles = [] → update s dt = s) := by
  refine ⟨rfl, rfl, rfl, fun h => ?_⟩
  cases s
  simp_all [update, collisionPass, pairIndices]

/-- Witness for C8 on the default (empty) world at `dt = 1`. -/
theorem clear_empties_and_update_empty_noop_witness :
    defaultSim.particles = [] ∧ update defaultSim 1 = defaultSim :=
  ⟨rfl, (clear_empties_and_update_empty_noop defaultSim 1).2.2.2 rfl⟩

/-- The per-particle fields `update` must never mutate: radius, color and
the whole trail state (buffer, length counter, write index). -/
def auxFields (p : Particle) : ℝ × Color × List Vec2 × Nat × Nat :=
  (p.radius, p.color, p.trail, p.trailLength, p.trailIndex)

theorem auxFields_gravityStep (dt : ℝ) (ws : List GravityWell) (p : Particle) :
    auxFields (gravityStep dt ws p) = auxFields p := rfl

theorem auxFields_integrateStep (dt : ℝ) (p : Particle) :
    auxFields (integrateStep dt p) = auxFields p := rfl

theorem auxFields_dragStep (d dt : ℝ) (p : Particle) :
    auxFields (dragStep d dt p) = auxFields p := by
  unfold dragStep; split_ifs <;> rfl

theorem auxFields_wallStep (W H e : ℝ) (p : Particle) :
    auxFields (wallStep W H e p) = auxFields p := by
  simp only [wallStep]; split_ifs <;> rfl

theorem auxFields_clampStep (b : Bool) (p : Particle) :
    auxFields (clampStep b p) = auxFields p := by
  simp only [clampStep]; split_ifs <;> rfl

theorem auxFields_finalizeStep (W H e d dt : ℝ) (b : Bool) (p : Particle) :
    auxFields (finalizeStep W H e d dt b p) = auxFields p := by
  unfold finalizeStep
  rw [auxFields_clampStep, auxFields_wallStep, auxFields_dragStep]

theorem auxFields_resolvePair_fst (e : ℝ) (a b : Particle) :
    auxFields (resolvePair e a b).1 = auxFields a := by
  simp only [resolvePair]; split_ifs <;> rfl

theorem auxFields_resolvePair_snd (e : ℝ) (a b : Particle) :
    auxFields (resolvePair e a b).2 = auxFields b := by
  simp only [resolvePair]; split_ifs <;> rfl

theorem updPair_length (e : ℝ) (ps : List Particle) (ij : Nat × Nat) :
    (updPair e ps ij).length = ps.length := by
  simp [updPair]

theorem updPair_auxFields (e : ℝ) (ps : List Particle) (ij : Nat × Nat) (i : Nat) :
    ((updPair e ps ij)[i]?).map auxFields = (ps[i]?).map auxFields := by
  have hfst := auxFields_resolvePair_fst e (ps.getD ij.1 pDummy) (ps.getD ij.2 pDummy)
  have hsnd := auxFields_resolvePair_snd e (ps.getD ij.1 pDummy) (ps.getD ij.2 pDummy)
  unfold updPair
  rw [List.getElem?_set', List.getElem?_set']
  cases hv : ps[i]? with
  | none => split_ifs <;> simp
  | some v =>
    have hgd : ∀ k, k = i → ps.getD k pDummy = v := by
      intro k hk; rw [hk, List.getD_eq_getElem?_getD, hv]; rfl
    split_ifs with h2 h1 h1 <;>
      simp only [Option.map_eq_map, Option.map_some', Option.map_none',
        Function.const_apply]
    · rw [hsnd, hgd ij.2 h2]
    · rw [hsnd, hgd ij.2 h2]
    · rw [hfst, hgd ij.1 h1]

theorem foldl_updPair_auxFields (e : ℝ) (l : List (Nat × Nat)) (ps : List Particle)
    (i : Nat) :
    ((l.foldl (updPair e) ps)[i]?).map auxFields = (ps[i]?).map auxFields := by
  induction l generalizing ps with
  | nil => rfl
  | cons hd tl ih => rw [List.foldl_cons, ih, updPair_auxFields]

theorem foldl_updPair_length (e : ℝ) (l : List (Nat × Nat)) (ps : List Particle) :
    (l.foldl (updPair e) ps).length = ps.length := by
  induction l generalizing ps with
  | nil => rfl
  | cons hd tl ih => rw [List.foldl_cons, ih, updPair_length]

theorem collisionPass_auxFields (e : ℝ) (ps : List Particle) (i : Nat) :
    ((collisionPass e ps)[i]?).map auxFields = (ps[i]?).map auxFields :=
  foldl_updPair_auxFields e (pairIndices ps.length) ps i

theorem collisionPass_length (e : ℝ) (ps : List Particle) :
    (collisionPass e ps).length = ps.length :=
  foldl_updPair_length e (pairIndices ps.length) ps

/-- The element at index `i` after `update`, written through the pipeline. -/
theorem update_particles_getElem? (s : Simulation) (dt : ℝ) (i : Nat) :
    (update s dt).particles[i]? =
      ((collisionPass s.restitution
          ((s.particles.map (gravityStep (min dt MAX_DT) s.gravityWells)).map
            (integrateStep (min dt MAX_DT))))[i]?).map
        (finalizeStep s.worldW s.worldH s.restitution s.drag (min dt MAX_DT)
          (!s.gravityWells.isEmpty)) := by
  simp only [update, List.getElem?_map]

theorem update_auxFields (s : Simulation) (dt : ℝ) (i : Nat) :
    ((update s dt).particles[i]?).map auxFields = (s.particles[i]?).map auxFields := by
  rw [update_particles_getElem?, Option.map_map]
  have hcomp : auxFields ∘ finalizeStep s.worldW s.worldH s.restitution s.drag
      (min dt MAX_DT) (!s.gravityWells.isEmpty) = auxFields := by
    funext q; exact auxFields_finalizeStep _ _ _ _ _ _ q
  rw [hcomp, collisionPass_auxFields]
  simp only [List.getElem?_map, Option.map_map]
  have hcomp2 : auxFields ∘ integrateStep (min dt MAX_DT) ∘
      gravityStep (min dt MAX_DT) s.gravityWells = auxFields := rfl
  rw [hcomp2]

/-- C9: `update` mutates only positions and velocities: every body's
radius, color and trail state is unchanged, the gravity wells (and hence
every attractor's position, strength and minRadius) are unchanged, and the
body and attractor counts are unchanged. -/
theorem update_mutates_only_pos_vel (s : Simulation) (dt : ℝ) :
    (update s dt).gravityWells = s.gravityWells ∧
    (update s dt).particles.length = s.particles.length ∧
    ∀ i : Nat,
      ((update s dt).particles[i]?).map auxFields = (s.particles[i]?).map auxFields := by
  refine ⟨rfl, ?_, fun i => update_auxFields s dt i⟩
  show ((collisionPass _ _).map _).length = _
  rw [List.length_map, collisionPass_length, List.length_map, List.length_map]

theorem dragStep_pos (d dt : ℝ) (p : Particle) : (dragStep d dt p).pos = p.pos := by
  unfold dragStep; split_ifs <;> rfl

theorem dragStep_radius (d dt : ℝ) (p : Particle) : (dragStep d dt p).radius = p.radius := by
  unfold dragStep; split_ifs <;> rfl

theorem clampStep_pos (b : Bool) (p : Particle) : (clampStep b p).pos = p.pos := by
  simp only [clampStep]; split_ifs <;> rfl

theorem finalizeStep_radius (W H e d dt : ℝ) (b : Bool) (p : Particle) :
    (finalizeStep W H e d dt b p).radius = p.radius :=
  congrArg Prod.fst (auxFields_finalizeStep W H e d dt b p)

/-- After the four sequential wall checks, a body whose diameter fits the
world is fully inside the bounds. -/
theorem wallStep_contained (W H e : ℝ) (p : Particle)
    (hx : 2 * p.radius ≤ W) (hy : 2 * p.radius ≤ H) :
    p.radius ≤ (wallStep W H e p).pos.x ∧ (wallStep W H e p).pos.x ≤ W - p.radius ∧
    p.radius ≤ (wallStep W H e p).pos.y ∧ (wallStep W H e p).pos.y ≤ H - p.radius := by
  simp only [wallStep]
  split_ifs <;> refine ⟨?_, ?_, ?_, ?_⟩ <;> (try dsimp only at *) <;> linarith

theorem finalizeStep_contained (W H e d dt : ℝ) (b : Bool) (p : Particle)
    (hx : 2 * p.radius ≤ W) (hy : 2 * p.radius ≤ H) :
    p.radius ≤ (finalizeStep W H e d dt b p).pos.x ∧
    (finalizeStep W H e d dt b p).pos.x ≤ W - p.radius ∧
    p.radius ≤ (finalizeStep W H e d dt b p).pos.y ∧
    (finalizeStep W H e d dt b p).pos.y ≤ H - p.radius := by
  unfold finalizeStep
  rw [clampStep_pos]
  have hr : (dragStep d dt p).radius = p.radius := dragStep_radius d dt p
  have h := wallStep_contained W H e (dragStep d dt p) (by rw [hr]; exact hx)
    (by rw [hr]; exact hy)
  rw [hr] at h
  exact h

/-- C3 amended: for every world in which each body's diameter fits the
bounds (`2*radius ≤ worldW` and `2*radius ≤ worldH`), every body is fully
inside the bounds after `update`. -/
theorem update_containment (s : Simulation) (dt : ℝ)
    (hfit : ∀ p ∈ s.particles, 2 * p.radius ≤ s.worldW ∧ 2 * p.radius ≤ s.worldH) :
    ∀ q ∈ (update s dt).particles,
      q.radius ≤ q.pos.x ∧ q.pos.x ≤ s.worldW - q.radius ∧
      q.radius ≤ q.pos.y ∧ q.pos.y ≤ s.worldH - q.radius := by
  intro q hq
  obtain ⟨i, hi⟩ := List.mem_iff_getElem?.mp hq
  rw [update_particles_getElem?] at hi
  cases hm : (collisionPass s.restitution
      ((s.particles.map (gravityStep (min dt MAX_DT) s.gravityWells)).map
        (integrateStep (min dt MAX_DT))))[i]? with
  | none => rw [hm] at hi; simp at hi
  | some m =>
    rw [hm] at hi
    simp only [Option.map_some', Option.some.injEq] at hi
    have haux := collisionPass_auxFields s.restitution
      ((s.particles.map (gravityStep (min dt MAX_DT) s.gravityWells)).map
        (integrateStep (min dt MAX_DT))) i
    rw [hm, List.getElem?_map, List.getElem?_map] at haux
    cases hsp : s.particles[i]? with
    | none => rw [hsp] at haux; simp at haux
    | some p0 =>
      rw [hsp] at haux
      simp only [Option.map_some'] at haux
      have hmr : m.radius = p0.radius := by
        have haux' : auxFields m =
            auxFields (integrateStep (min dt MAX_DT)
              (gravityStep (min dt MAX_DT) s.gravityWells p0)) := by
          simpa using haux
        simpa [auxFields] using congrArg Prod.fst haux'
      have hp0 : p0 ∈ s.particles := List.getElem?_mem hsp
      obtain ⟨hx, hy⟩ := hfit p0 hp0
      have hcont := finalizeStep_contained s.worldW s.worldH s.restitution s.drag
        (min dt MAX_DT) (!s.gravityWells.isEmpty) m (by rw [hmr]; exact hx)
        (by rw [hmr]; exact hy)
      rw [← hi, finalizeStep_radius, hmr]
      rw [hmr] at hcont
      exact hcont

/-- A world too small for its single body: bounds 10×10, radius 6. -/
def simC3 : Simulation :=
  ⟨10, 10, 9 / 10, 0, [⟨⟨5, 5⟩, ⟨0, 0⟩, 6, ⟨1, 1, 1, 1⟩, [], 0, 0⟩], []⟩

/-- Counterexample to C3 as stated: in the 10×10 world with a radius-6 body,
after `update 0` the body sits at `pos.x = 4 < 6 = radius`, violating
`radius ≤ pos.x`. -/
theorem update_containment_cex :
    ¬ ((update simC3 0).particles.getD 0 pDummy).radius ≤
      ((update simC3 0).particles.getD 0 pDummy).pos.x := by
  have hmin : min (0 : ℝ) MAX_DT = 0 := min_eq_left (by norm_num [MAX_DT])
  have hps : (update simC3 0).particles.getD 0 pDummy =
      finalizeStep 10 10 (9 / 10) 0 (min (0 : ℝ) MAX_DT) false
        (integrateStep (min (0 : ℝ) MAX_DT)
          (gravityStep (min (0 : ℝ) MAX_DT) []
            ⟨⟨5, 5⟩, ⟨0, 0⟩, 6, ⟨1, 1, 1, 1⟩, [], 0, 0⟩)) := rfl
  rw [hps, hmin]
  norm_num [finalizeStep, clampStep, wallStep, dragStep, integrateStep, gravityStep,
    List.foldl, TINY_SPEED]

/-- A well-sized world for the C3 witness: bounds 100×100, one radius-5 body. -/
def simW3 : Simulation :=
  ⟨100, 100, 9 / 10, 0, [⟨⟨50, 50⟩, ⟨0, 0⟩, 5, ⟨1, 1, 1, 1⟩, [], 0, 0⟩], []⟩

/-- Witness for the amended C3 on a concrete world. -/
theorem update_containment_witness :
    (∀ p ∈ simW3.particles, 2 * p.radius ≤ simW3.worldW ∧ 2 * p.radius ≤ simW3.worldH) ∧
    (∀ q ∈ (update simW3 1).particles,
      q.radius ≤ q.pos.x ∧ q.pos.x ≤ simW3.worldW - q.radius ∧
      q.radius ≤ q.pos.y ∧ q.pos.y ≤ simW3.worldH - q.radius) := by
  have hfit : ∀ p ∈ simW3.particles,
      2 * p.radius ≤ simW3.worldW ∧ 2 * p.radius ≤ simW3.worldH := by
    intro p hp
    simp only [simW3, List.mem_singleton] at hp
    subst hp
    norm_num [simW3]
  exact ⟨hfit, update_containment simW3 1 hfit⟩

/-- The concrete C2 scenario: bounds 100×100, restitution 1, drag 0, one
body at (50,50), radius 5, velocity (0,-1000). -/
def simC2 : Simulation :=
  ⟨100, 100, 1, 0, [⟨⟨50, 50⟩, ⟨0, -1000⟩, 5, ⟨1, 1, 1, 1⟩, [], 0, 0⟩], []⟩

/-- Counterexample to C2 as stated: after one `update 1` (clamped to
`dt = 1/30`) the body has only reached `y = 50 - 1000/30 = 50/3 ≈ 16.7`, so
it has not hit the top wall: `pos.y ≠ 5` and `vel.y = -1000 < 0`. -/
theorem bounce_scenario_cex :
    ¬ (((update simC2 1).particles.getD 0 pDummy).pos.y = 5 ∧
       0 < ((update simC2 1).particles.getD 0 pDummy).vel.y) := by
  have hmin : min (1 : ℝ) MAX_DT = 1 / 30 := by
    rw [show MAX_DT = 1 / 30 from rfl]
    exact min_eq_right (by norm_num)
  have hps : (update simC2 1).particles.getD 0 pDummy =
      finalizeStep 100 100 1 0 (min (1 : ℝ) MAX_DT) false
        (integrateStep (min (1 : ℝ) MAX_DT)
          (gravityStep (min (1 : ℝ) MAX_DT) []
            ⟨⟨50, 50⟩, ⟨0, -1000⟩, 5, ⟨1, 1, 1, 1⟩, [], 0, 0⟩)) := rfl
  rw [hps, hmin]
  norm_num [finalizeStep, clampStep, wallStep, dragStep, integrateStep, gravityStep,
    List.foldl, TINY_SPEED]

/-- C2 amended: after one `update 1` the body is at `y = 50/3` still moving
down at `-1000`; after a second `update 1` it has bounced off the top wall:
`pos.y = 5` and `vel.y > 0`. -/
theorem bounce_scenario_amended :
    ((update simC2 1).particles.getD 0 pDummy).pos.y = 50 / 3 ∧
    ((update simC2 1).particles.getD 0 pDummy).vel.y = -1000 ∧
    ((update (update simC2 1) 1).particles.getD 0 pDummy).pos.y = 5 ∧
    0 < ((update (update simC2 1) 1).particles.getD 0 pDummy).vel.y := by
  have hmin : min (1 : ℝ) MAX_DT = 1 / 30 := by
    rw [show MAX_DT = 1 / 30 from rfl]
    exact min_eq_right (by norm_num)
  have hps : (update simC2 1).particles.getD 0 pDummy =
      finalizeStep 100 100 1 0 (min (1 : ℝ) MAX_DT) false
        (integrateStep (min (1 : ℝ) MAX_DT)
          (gravityStep (min (1 : ℝ) MAX_DT) []
            ⟨⟨50, 50⟩, ⟨0, -1000⟩, 5, ⟨1, 1, 1, 1⟩, [], 0, 0⟩)) := rfl
  have hps2 : (update (update simC2 1) 1).particles.getD 0 pDummy =
      finalizeStep 100 100 1 0 (min (1 : ℝ) MAX_DT) false
        (integrateStep (min (1 : ℝ) MAX_DT)
          (gravityStep (min (1 : ℝ) MAX_DT) []
            (finalizeStep 100 100 1 0 (min (1 : ℝ) MAX_DT) false
              (integrateStep (min (1 : ℝ) MAX_DT)
                (gravityStep (min (1 : ℝ) MAX_DT) []
                  ⟨⟨50, 50⟩, ⟨0, -1000⟩, 5, ⟨1, 1, 1, 1⟩, [], 0, 0⟩))))) := rfl
  rw [hps, hps2, hmin]
  norm_num [finalizeStep, clampStep, wallStep, dragStep, integrateStep, gravityStep,
    List.foldl, TINY_SPEED, abs_of_nonneg, abs_of_nonpos]

/-- No wall check fires for this particle: its edges are at or inside all
four bounds. -/
def inWalls (W H : ℝ) (p : Particle) : Prop :=
  p.radius ≤ p.pos.x ∧ p.pos.x + p.radius ≤ W ∧
  p.radius ≤ p.pos.y ∧ p.pos.y + p.radius ≤ H

theorem wallStep_id_of_inWalls (W H e : ℝ) (p : Particle) (h : inWalls W H p) :
    wallStep W H e p = p := by
  obtain ⟨h1, h2, h3, h4⟩ := h
  simp only [wallStep]
  rw [if_neg (show ¬ p.pos.x - p.radius < 0 by push_neg; linarith)]
  rw [if_neg (show ¬ p.pos.x + p.radius > W by push_neg; linarith)]
  rw [if_neg (show ¬ p.pos.y - p.radius < 0 by push_neg; linarith)]
  rw [if_neg (show ¬ p.pos.y + p.radius > H by push_neg; linarith)]

theorem finalizeStep_pos_of_inWalls (W H e d dt : ℝ) (b : Bool) (p : Particle)
    (h : inWalls W H p) :
    (finalizeStep W H e d dt b p).pos = p.pos := by
  have hd : inWalls W H (dragStep d dt p) := by
    unfold inWalls
    rw [dragStep_pos, dragStep_radius]
    exact h
  unfold finalizeStep
  rw [clampStep_pos, wallStep_id_of_inWalls W H e _ hd, dragStep_pos]

/-- Position correction restores exact contact for the resolved pair (at
the moment of resolution), provided the separation exceeds the epsilon. -/
theorem resolvePair_exact_contact (e : ℝ) (a b : Particle)
    (h1 : MIN_SEPARATION < (b.pos - a.pos).length)
    (h2 : (b.pos - a.pos).length < a.radius + b.radius) :
    ((resolvePair e a b).2.pos - (resolvePair e a b).1.pos).length =
      a.radius + b.radius := by
  have hM : 0 < a.radius * a.radius + b.radius * b.radius :=
    totalMass_pos_of_collision h2
  have hMne : a.radius * a.radius + b.radius * b.radius ≠ 0 := ne_of_gt hM
  have hDpos : 0 < (b.pos - a.pos).length :=
    lt_trans (by norm_num [MIN_SEPARATION]) h1
  have hDne : (b.pos - a.pos).length ≠ 0 := ne_of_gt hDpos
  have hmul : (b.pos - a.pos).length * (b.pos - a.pos).length =
      (b.pos - a.pos).lengthSq := length_mul_self _
  have hsum : 0 ≤ a.radius + b.radius := le_of_lt (lt_trans hDpos h2)
  simp only [resolvePair]
  rw [if_neg (not_le.mpr h2)]
  simp only [contactNormal]
  rw [if_pos h1]
  simp only [Vec2.normalized]
  rw [if_neg (not_le.mpr hDpos)]
  show Real.sqrt _ = _
  refine sqrt_eval (a.radius + b.radius) hsum ?_
  simp only [Vec2.lengthSq, Vec2.sub_x, Vec2.sub_y] at hmul
  simp only [Vec2.lengthSq, Vec2.sub_x, Vec2.sub_y, Vec2.add_x, Vec2.add_y,
    Vec2.smul_x, Vec2.smul_y]
  field_simp
  linear_combination ((a.radius * a.radius + b.radius * b.radius) *
    (a.radius * a.radius + b.radius * b.radius) * (a.radius + b.radius) *
    (a.radius + b.radius)) * hmul

/-- C4 amended: in a two-body world, when the pair detected by the
collision pass is separated by more than `MIN_SEPARATION` and the corrected
positions trigger no wall check, the post-`update` distance between centers
equals `radius_i + radius_j` exactly.  (As originally stated the claim
fails: a later wall correction can move a resolved body again.) -/
theorem update_no_residual_overlap_pair (s : Simulation) (dt : ℝ) (a b : Particle)
    (hps : (s.particles.map (gravityStep (min dt MAX_DT) s.gravityWells)).map
        (integrateStep (min dt MAX_DT)) = [a, b])
    (h1 : MIN_SEPARATION < (b.pos - a.pos).length)
    (h2 : (b.pos - a.pos).length < a.radius + b.radius)
    (ha : inWalls s.worldW s.worldH (resolvePair s.restitution a b).1)
    (hb : inWalls s.worldW s.worldH (resolvePair s.restitution a b).2) :
    (((update s dt).particles.getD 1 pDummy).pos -
      ((update s dt).particles.getD 0 pDummy).pos).length = a.radius + b.radius := by
  have hupd : (update s dt).particles =
      (collisionPass s.restitution [a, b]).map
        (finalizeStep s.worldW s.worldH s.restitution s.drag (min dt MAX_DT)
          (!s.gravityWells.isEmpty)) := by
    show (collisionPass s.restitution ((s.particles.map _).map _)).map _ = _
    rw [hps]
  have hcp : collisionPass s.restitution [a, b] =
      [(resolvePair s.restitution a b).1, (resolvePair s.restitution a b).2] := rfl
  have hgd0 : (update s dt).particles.getD 0 pDummy =
      finalizeStep s.worldW s.worldH s.restitution s.drag (min dt MAX_DT)
        (!s.gravityWells.isEmpty) (resolvePair s.restitution a b).1 := by
    rw [hupd, hcp]; rfl
  have hgd1 : (update s dt).particles.getD 1 pDummy =
      finalizeStep s.worldW s.worldH s.restitution s.drag (min dt MAX_DT)
        (!s.gravityWells.isEmpty) (resolvePair s.restitution a b).2 := by
    rw [hupd, hcp]; rfl
  rw [hgd0, hgd1, finalizeStep_pos_of_inWalls _ _ _ _ _ _ _ ha,
    finalizeStep_pos_of_inWalls _ _ _ _ _ _ _ hb]
  exact resolvePair_exact_contact s.restitution a b h1 h2

/-- Bodies of the C4 counterexample: overlapping near the left wall. -/
def pC4a : Particle := ⟨⟨2, 50⟩, ⟨0, 0⟩, 5, ⟨1, 1, 1, 1⟩, [], 0, 0⟩

def pC4b : Particle := ⟨⟨6, 50⟩, ⟨0, 0⟩, 5, ⟨1, 1, 1, 1⟩, [], 0, 0⟩

def simC4 : Simulation := ⟨100, 100, 9 / 10, 0, [pC4a, pC4b], []⟩

/-- Counterexample to C4 as stated: the pair at (2,50)/(6,50) (distance 4,
radii 5+5) is detected as colliding, but after `update` completes the wall
correction has moved the left body back inward and the centers are again
only 4 < 10 apart — not equal to the radius sum within any tolerance. -/
theorem update_residual_overlap_cex :
    ((integrateStep (min (0 : ℝ) MAX_DT) (gravityStep (min (0 : ℝ) MAX_DT) [] pC4b)).pos -
      (integrateStep (min (0 : ℝ) MAX_DT)
        (gravityStep (min (0 : ℝ) MAX_DT) [] pC4a)).pos).length <
      pC4a.radius + pC4b.radius ∧
    (((update simC4 0).particles.getD 1 pDummy).pos -
      ((update simC4 0).particles.getD 0 pDummy).pos).length = 4 ∧
    (4 : ℝ) < pC4a.radius + pC4b.radius := by
  have hmin : min (0 : ℝ) MAX_DT = 0 := min_eq_left (by norm_num [MAX_DT])
  have h16 : Real.sqrt 16 = 4 := sqrt_eval 4 (by norm_num) (by norm_num)
  refine ⟨?_, ?_, by norm_num [pC4a, pC4b]⟩
  · show Real.sqrt _ < _
    norm_num [integrateStep, gravityStep, List.foldl, pC4a, pC4b,
      Vec2.lengthSq, h16]
  · have hgd0 : (update simC4 0).particles.getD 0 pDummy =
        finalizeStep 100 100 (9 / 10) 0 (min (0 : ℝ) MAX_DT) false
          (resolvePair (9 / 10)
            (integrateStep (min (0 : ℝ) MAX_DT) (gravityStep (min (0 : ℝ) MAX_DT) [] pC4a))
            (integrateStep (min (0 : ℝ) MAX_DT)
              (gravityStep (min (0 : ℝ) MAX_DT) [] pC4b))).1 := rfl
    have hgd1 : (update simC4 0).particles.getD 1 pDummy =
        finalizeStep 100 100 (9 / 10) 0 (min (0 : ℝ) MAX_DT) false
          (resolvePair (9 / 10)
            (integrateStep (min (0 : ℝ) MAX_DT) (gravityStep (min (0 : ℝ) MAX_DT) [] pC4a))
            (integrateStep (min (0 : ℝ) MAX_DT)
              (gravityStep (min (0 : ℝ) MAX_DT) [] pC4b))).2 := rfl
    have hres : resolvePair (9 / 10)
        (integrateStep (0 : ℝ) (gravityStep (0 : ℝ) [] pC4a))
        (integrateStep (0 : ℝ) (gravityStep (0 : ℝ) [] pC4b)) =
        (⟨⟨-1, 50⟩, ⟨0, 0⟩, 5, ⟨1, 1, 1, 1⟩, [], 0, 0⟩,
         ⟨⟨9, 50⟩, ⟨0, 0⟩, 5, ⟨1, 1, 1, 1⟩, [], 0, 0⟩) := by
      norm_num [resolvePair, contactNormal, integrateStep, gravityStep, List.foldl,
        Vec2.length, Vec2.lengthSq, Vec2.normalized, Vec2.dot, MIN_SEPARATION,
        pC4a, pC4b, h16]
    rw [hgd0, hgd1, hmin, hres]
    show Real.sqrt _ = _
    norm_num [finalizeStep, clampStep, wallStep, dragStep, TINY_SPEED,
      Vec2.lengthSq, h16]

/-- Bodies of the C4 witness (the spec §8 scenario): overlapping by 6 in
mid-world. -/
def pW4a : Particle := ⟨⟨48, 50⟩, ⟨0, 0⟩, 5, ⟨1, 1, 1, 1⟩, [], 0, 0⟩

def pW4b : Particle := ⟨⟨52, 50⟩, ⟨0, 0⟩, 5, ⟨1, 1, 1, 1⟩, [], 0, 0⟩

def simW4 : Simulation := ⟨100, 100, 9 / 10, 0, [pW4a, pW4b], []⟩

/-- Witness for the amended C4: bodies at (48,50)/(52,50), radii 5, end up
exactly 10 apart after `update`. -/
theorem update_no_residual_overlap_pair_witness :
    (((update simW4 0).particles.getD 1 pDummy).pos -
      ((update simW4 0).particles.getD 0 pDummy).pos).length =
      (integrateStep (min (0 : ℝ) MAX_DT)
          (gravityStep (min (0 : ℝ) MAX_DT) [] pW4a)).radius +
      (integrateStep (min (0 : ℝ) MAX_DT)
          (gravityStep (min (0 : ℝ) MAX_DT) [] pW4b)).radius := by
  have h16 : Real.sqrt 16 = 4 := sqrt_eval 4 (by norm_num) (by norm_num)
  have hps : (simW4.particles.map (gravityStep (min (0 : ℝ) MAX_DT) simW4.gravityWells)).map
      (integrateStep (min (0 : ℝ) MAX_DT)) =
      [integrateStep (min (0 : ℝ) MAX_DT) (gravityStep (min (0 : ℝ) MAX_DT) [] pW4a),
       integrateStep (min (0 : ℝ) MAX_DT) (gravityStep (min (0 : ℝ) MAX_DT) [] pW4b)] := rfl
  have h1 : MIN_SEPARATION <
      ((integrateStep (min (0 : ℝ) MAX_DT) (gravityStep (min (0 : ℝ) MAX_DT) [] pW4b)).pos -
        (integrateStep (min (0 : ℝ) MAX_DT)
          (gravityStep (min (0 : ℝ) MAX_DT) [] pW4a)).pos).length := by
    show MIN_SEPARATION < Real.sqrt _
    norm_num [integrateStep, gravityStep, List.foldl, pW4a, pW4b, Vec2.lengthSq,
      MIN_SEPARATION, h16]
  have h2 : ((integrateStep (min (0 : ℝ) MAX_DT)
        (gravityStep (min (0 : ℝ) MAX_DT) [] pW4b)).pos -
      (integrateStep (min (0 : ℝ) MAX_DT)
        (gravityStep (min (0 : ℝ) MAX_DT) [] pW4a)).pos).length <
      (integrateStep (min (0 : ℝ) MAX_DT) (gravityStep (min (0 : ℝ) MAX_DT) [] pW4a)).radius +
      (integrateStep (min (0 : ℝ) MAX_DT)
        (gravityStep (min (0 : ℝ) MAX_DT) [] pW4b)).radius := by
    show Real.sqrt _ < _
    norm_num [integrateStep, gravityStep, List.foldl, pW4a, pW4b, Vec2.lengthSq, h16]
  have hres : resolvePair simW4.restitution
      (integrateStep (min (0 : ℝ) MAX_DT) (gravityStep (min (0 : ℝ) MAX_DT) [] pW4a))
      (integrateStep (min (0 : ℝ) MAX_DT) (gravityStep (min (0 : ℝ) MAX_DT) [] pW4b)) =
      (⟨⟨45, 50⟩, ⟨0, 0⟩, 5, ⟨1, 1, 1, 1⟩, [], 0, 0⟩,
       ⟨⟨55, 50⟩, ⟨0, 0⟩, 5, ⟨1, 1, 1, 1⟩, [], 0, 0⟩) := by
    show resolvePair (9 / 10) _ _ = _
    norm_num [resolvePair, contactNormal, integrateStep, gravityStep, List.foldl,
      Vec2.length, Vec2.lengthSq, Vec2.normalized, Vec2.dot, MIN_SEPARATION,
      pW4a, pW4b, MAX_DT, h16]
  have ha : inWalls simW4.worldW simW4.worldH
      (resolvePair simW4.restitution
        (integrateStep (min (0 : ℝ) MAX_DT) (gravityStep (min (0 : ℝ) MAX_DT) [] pW4a))
        (integrateStep (min (0 : ℝ) MAX_DT)
          (gravityStep (min (0 : ℝ) MAX_DT) [] pW4b))).1 := by
    rw [hres]
    show inWalls 100 100 _
    norm_num [inWalls]
  have hb : inWalls simW4.worldW simW4.worldH
      (resolvePair simW4.restitution
        (integrateStep (min (0 : ℝ) MAX_DT) (gravityStep (min (0 : ℝ) MAX_DT) [] pW4a))
        (integrateStep (min (0 : ℝ) MAX_DT)
          (gravityStep (min (0 : ℝ) MAX_DT) [] pW4b))).2 := by
    rw [hres]
    show inWalls 100 100 _
    norm_num [inWalls]
  exact update_no_residual_overlap_pair simW4 0 _ _ hps h1 h2 ha hb

/-- With the clamp enabled (no wells), a slow particle's velocity is
zeroed. -/
theorem clampStep_zeroes (q : Particle) (hs : q.vel.length < TINY_SPEED) :
    (clampStep false q).vel = ⟨0, 0⟩ := by
  have hsq : q.vel.x * q.vel.x + q.vel.y * q.vel.y < TINY_SPEED * TINY_SPEED := by
    have h := mul_self_lt_mul_self (length_nonneg q.vel) hs
    rw [length_mul_self] at h
    exact h
  simp only [clampStep]
  rw [if_pos ⟨by simp, hsq⟩]

/-- With any well present the clamp is skipped entirely. -/
theorem clampStep_skip (q : Particle) : clampStep true q = q := by
  simp only [clampStep]
  rw [if_neg (by simp)]

/-- C6: with zero attractors, a body whose speed after drag and wall
handling is below `TINY_SPEED` ends the `update` with velocity exactly
`(0,0)`; with at least one attractor, no body's velocity is zeroed by this
rule — it ends the `update` exactly as drag and walls left it. -/
theorem update_jitter_clamp (s : Simulation) (dt : ℝ) (i : Nat) (p : Particle)
    (hmid : (collisionPass s.restitution
        ((s.particles.map (gravityStep (min dt MAX_DT) s.gravityWells)).map
          (integrateStep (min dt MAX_DT))))[i]? = some p) :
    (s.gravityWells = [] →
      (wallStep s.worldW s.worldH s.restitution
          (dragStep s.drag (min dt MAX_DT) p)).vel.length < TINY_SPEED →
      ((update s dt).particles[i]?).map Particle.vel = some ⟨0, 0⟩) ∧
    (s.gravityWells ≠ [] →
      ((update s dt).particles[i]?).map Particle.vel =
        some (wallStep s.worldW s.worldH s.restitution
          (dragStep s.drag (min dt MAX_DT) p)).vel) := by
  have hupd := update_particles_getElem? s dt i
  rw [hmid] at hupd
  simp only [Option.map_some'] at hupd
  constructor
  · intro hw hs
    rw [hupd]
    simp only [Option.map_some', hw, List.isEmpty_nil, Bool.not_true]
    refine congrArg some ?_
    show (clampStep false (wallStep s.worldW s.worldH s.restitution
      (dragStep s.drag (min dt MAX_DT) p))).vel = _
    exact clampStep_zeroes _ hs
  · intro hw
    rw [hupd]
    have hw' : s.gravityWells.isEmpty = false := List.isEmpty_eq_false.mpr hw
    simp only [Option.map_some', hw', Bool.not_false]
    refine congrArg some ?_
    show (clampStep true (wallStep s.worldW s.worldH s.restitution
      (dragStep s.drag (min dt MAX_DT) p))).vel = _
    rw [clampStep_skip]

/-- The slow body used in both C6 witness worlds. -/
def pC6 : Particle := ⟨⟨50, 50⟩, ⟨3 / 10, 0⟩, 5, ⟨1, 1, 1, 1⟩, [], 0, 0⟩

/-- C6 witness world without attractors. -/
def simC6a : Simulation := ⟨100, 100, 1, 0, [pC6], []⟩

/-- C6 witness world with one attractor. -/
def simC6b : Simulation := ⟨100, 100, 1, 0, [pC6], [mkGravityWell ⟨0, 0⟩]⟩

/-- Witness for C6: the slow body is zeroed with no well present, and kept
exactly at its drag/wall velocity with a well present. -/
theorem update_jitter_clamp_witness :
    (((update simC6a 0).particles[0]?).map Particle.vel = some ⟨0, 0⟩) ∧
    simC6b.gravityWells ≠ [] ∧
    ((update simC6b 0).particles[0]?).map Particle.vel =
      some (wallStep simC6b.worldW simC6b.worldH simC6b.restitution
        (dragStep simC6b.drag (min (0 : ℝ) MAX_DT)
          (integrateStep (min (0 : ℝ) MAX_DT)
            (gravityStep (min (0 : ℝ) MAX_DT) simC6b.gravityWells pC6)))).vel := by
  have hmin : min (0 : ℝ) MAX_DT = 0 := min_eq_left (by norm_num [MAX_DT])
  have hmidA : (collisionPass simC6a.restitution
      ((simC6a.particles.map (gravityStep (min (0 : ℝ) MAX_DT) simC6a.gravityWells)).map
        (integrateStep (min (0 : ℝ) MAX_DT))))[0]? =
      some (integrateStep (min (0 : ℝ) MAX_DT)
        (gravityStep (min (0 : ℝ) MAX_DT) simC6a.gravityWells pC6)) := rfl
  have hmidB : (collisionPass simC6b.restitution
      ((simC6b.particles.map (gravityStep (min (0 : ℝ) MAX_DT) simC6b.gravityWells)).map
        (integrateStep (min (0 : ℝ) MAX_DT))))[0]? =
      some (integrateStep (min (0 : ℝ) MAX_DT)
        (gravityStep (min (0 : ℝ) MAX_DT) simC6b.gravityWells pC6)) := rfl
  have hvel : (wallStep simC6a.worldW simC6a.worldH simC6a.restitution
      (dragStep simC6a.drag (min (0 : ℝ) MAX_DT)
        (integrateStep (min (0 : ℝ) MAX_DT)
          (gravityStep (min (0 : ℝ) MAX_DT) simC6a.gravityWells pC6)))).vel =
      ⟨3 / 10, 0⟩ := by
    rw [hmin]
    norm_num [wallStep, dragStep, integrateStep, gravityStep, List.foldl, pC6, simC6a]
  have hs : (wallStep simC6a.worldW simC6a.worldH simC6a.restitution
      (dragStep simC6a.drag (min (0 : ℝ) MAX_DT)
        (integrateStep (min (0 : ℝ) MAX_DT)
          (gravityStep (min (0 : ℝ) MAX_DT) simC6a.gravityWells pC6)))).vel.length <
      TINY_SPEED := by
    rw [hvel]
    show Real.sqrt (3 / 10 * (3 / 10) + 0 * 0) < TINY_SPEED
    rw [show (3 : ℝ) / 10 * (3 / 10) + 0 * 0 = 9 / 100 by norm_num,
      show TINY_SPEED = 1 / 2 from rfl]
    exact (Real.sqrt_lt' (by norm_num)).mpr (by norm_num)
  refine ⟨(update_jitter_clamp simC6a 0 0 _ hmidA).1 rfl hs, ?_, ?_⟩
  · show [mkGravityWell ⟨0, 0⟩] ≠ []
    exact List.cons_ne_nil _ _
  · exact (update_jitter_clamp simC6b 0 0 _ hmidB).2
      (by show [mkGravityWell ⟨0, 0⟩] ≠ []; exact List.cons_ne_nil _ _)

/-- With `dt = 0` every gravity increment is the zero vector, so the
gravity pass is the identity. -/
theorem gravityStep_zero_dt (wells : List GravityWell) (p : Particle) :
    gravityStep 0 wells p = p := by
  have hfold : ∀ v : Vec2, wells.foldl (fun v w => v + gravityDelta 0 p.pos w) v = v := by
    induction wells with
    | nil => intro v; rfl
    | cons hd tl ih =>
      intro v
      rw [List.foldl_cons]
      have hz : v + gravityDelta 0 p.pos hd = v := by
        simp only [gravityDelta]
        split_ifs <;> refine Vec2.ext ?_ ?_ <;> simp
      rw [hz, ih]
  show { p with vel := wells.foldl _ p.vel } = p
  rw [hfold]

/-- With `dt = 0` integration moves nothing. -/
theorem integrateStep_zero_dt (p : Particle) : integrateStep 0 p = p := by
  have hz : p.pos + p.vel * (0 : ℝ) = p.pos := by
    refine Vec2.ext ?_ ?_ <;> simp
  show { p with pos := p.pos + p.vel * (0 : ℝ) } = p
  rw [hz]

/-- Colliding bodies of the C10 world (they get pushed apart). -/
def pC10a : Particle := ⟨⟨48, 50⟩, ⟨0, 0⟩, 5, ⟨1, 1, 1, 1⟩, [], 0, 0⟩

def pC10b : Particle := ⟨⟨52, 50⟩, ⟨0, 0⟩, 5, ⟨1, 1, 1, 1⟩, [], 0, 0⟩

/-- Slow out-of-bounds body of the C10 world (it gets repositioned and its
velocity zeroed). -/
def pC10c : Particle := ⟨⟨1, 1⟩, ⟨3 / 10, 0⟩, 5, ⟨1, 1, 1, 1⟩, [], 0, 0⟩

def simC10 : Simulation := ⟨100, 100, 1, 0, [pC10a, pC10b, pC10c], []⟩

/-- C10: `update 0` is not a no-op.  With `dt = 0` the gravity and
integration passes vanish (the whole update equals collision resolution
plus the per-body finalize pass), yet overlapping pairs are still pushed to
exact contact and impulsed, out-of-bounds bodies are still repositioned,
and with no attractors slow bodies still have their velocity zeroed — the
concrete world `simC10` is visibly mutated. -/
theorem update_zero_dt_not_noop (s : Simulation) :
    (update s 0 =
      { s with
        particles :=
          (collisionPass s.restitution s.particles).map
            (finalizeStep s.worldW s.worldH s.restitution s.drag (min (0 : ℝ) MAX_DT)
              (!s.gravityWells.isEmpty)) }) ∧
    update simC10 0 ≠ simC10 ∧
    ((update simC10 0).particles.map fun q => (q.pos, q.vel)) =
      [((⟨45, 50⟩ : Vec2), (⟨0, 0⟩ : Vec2)), ((⟨55, 50⟩ : Vec2), (⟨0, 0⟩ : Vec2)),
       ((⟨5, 5⟩ : Vec2), (⟨0, 0⟩ : Vec2))] := by
  have hmin : min (0 : ℝ) MAX_DT = 0 := min_eq_left (by norm_num [MAX_DT])
  have hzero : ∀ t : Simulation, update t 0 =
      { t with
        particles :=
          (collisionPass t.restitution t.particles).map
            (finalizeStep t.worldW t.worldH t.restitution t.drag (min (0 : ℝ) MAX_DT)
              (!t.gravityWells.isEmpty)) } := by
    intro t
    have hg : t.particles.map (gravityStep (min (0 : ℝ) MAX_DT) t.gravityWells) =
        t.particles := by
      rw [hmin]
      exact List.map_id'' (gravityStep_zero_dt t.gravityWells) t.particles
    have hi : t.particles.map (integrateStep (min (0 : ℝ) MAX_DT)) = t.particles := by
      rw [hmin]
      exact List.map_id'' integrateStep_zero_dt t.particles
    show { t with particles := (collisionPass t.restitution
        ((t.particles.map (gravityStep (min (0 : ℝ) MAX_DT) t.gravityWells)).map
          (integrateStep (min (0 : ℝ) MAX_DT)))).map _ } = _
    rw [hg, hi]
  have h16 : Real.sqrt 16 = 4 := sqrt_eval 4 (by norm_num) (by norm_num)
  have e1 : resolvePair (1 : ℝ) pC10a pC10b =
      (⟨⟨45, 50⟩, ⟨0, 0⟩, 5, ⟨1, 1, 1, 1⟩, [], 0, 0⟩,
       ⟨⟨55, 50⟩, ⟨0, 0⟩, 5, ⟨1, 1, 1, 1⟩, [], 0, 0⟩) := by
    norm_num [resolvePair, contactNormal, Vec2.length, Vec2.lengthSq, Vec2.normalized,
      Vec2.dot, MIN_SEPARATION, pC10a, pC10b, h16]
  have e2 : resolvePair (1 : ℝ) (⟨⟨45, 50⟩, ⟨0, 0⟩, 5, ⟨1, 1, 1, 1⟩, [], 0, 0⟩ : Particle)
      pC10c =
      (⟨⟨45, 50⟩, ⟨0, 0⟩, 5, ⟨1, 1, 1, 1⟩, [], 0, 0⟩, pC10c) := by
    have hd : ((pC10c.pos - (⟨⟨45, 50⟩, ⟨0, 0⟩, 5, ⟨1, 1, 1, 1⟩, [], 0, 0⟩ :
        Particle).pos).length ≥
        (⟨⟨45, 50⟩, ⟨0, 0⟩, 5, ⟨1, 1, 1, 1⟩, [], 0, 0⟩ : Particle).radius + pC10c.radius) := by
      show ((5 : ℝ) + 5) ≤ Real.sqrt ((1 - 45) * (1 - 45) + (1 - 50) * (1 - 50))
      rw [show ((1 : ℝ) - 45) * (1 - 45) + (1 - 50) * (1 - 50) = 4337 by norm_num]
      rw [show (5 : ℝ) + 5 = 10 by norm_num]
      exact (Real.le_sqrt' (by norm_num)).mpr (by norm_num)
    simp only [resolvePair]
    rw [if_pos hd]
  have e3 : resolvePair (1 : ℝ) (⟨⟨55, 50⟩, ⟨0, 0⟩, 5, ⟨1, 1, 1, 1⟩, [], 0, 0⟩ : Particle)
      pC10c =
      (⟨⟨55, 50⟩, ⟨0, 0⟩, 5, ⟨1, 1, 1, 1⟩, [], 0, 0⟩, pC10c) := by
    have hd : ((pC10c.pos - (⟨⟨55, 50⟩, ⟨0, 0⟩, 5, ⟨1, 1, 1, 1⟩, [], 0, 0⟩ :
        Particle).pos).length ≥
        (⟨⟨55, 50⟩, ⟨0, 0⟩, 5, ⟨1, 1, 1, 1⟩, [], 0, 0⟩ : Particle).radius + pC10c.radius) := by
      show ((5 : ℝ) + 5) ≤ Real.sqrt ((1 - 55) * (1 - 55) + (1 - 50) * (1 - 50))
      rw [show ((1 : ℝ) - 55) * (1 - 55) + (1 - 50) * (1 - 50) = 5317 by norm_num]
      rw [show (5 : ℝ) + 5 = 10 by norm_num]
      exact (Real.le_sqrt' (by norm_num)).mpr (by norm_num)
    simp only [resolvePair]
    rw [if_pos hd]
  have hcp : collisionPass (1 : ℝ) [pC10a, pC10b, pC10c] =
      [⟨⟨45, 50⟩, ⟨0, 0⟩, 5, ⟨1, 1, 1, 1⟩, [], 0, 0⟩,
       ⟨⟨55, 50⟩, ⟨0, 0⟩, 5, ⟨1, 1, 1, 1⟩, [], 0, 0⟩, pC10c] := by
    show updPair (1 : ℝ) (updPair (1 : ℝ) (updPair (1 : ℝ) [pC10a, pC10b, pC10c] (0, 1))
      (0, 2)) (1, 2) = _
    have s1 : updPair (1 : ℝ) [pC10a, pC10b, pC10c] (0, 1) =
        [⟨⟨45, 50⟩, ⟨0, 0⟩, 5, ⟨1, 1, 1, 1⟩, [], 0, 0⟩,
         ⟨⟨55, 50⟩, ⟨0, 0⟩, 5, ⟨1, 1, 1, 1⟩, [], 0, 0⟩, pC10c] := by
      show ([pC10a, pC10b, pC10c].set 0 (resolvePair (1 : ℝ) pC10a pC10b).1).set 1
        (resolvePair (1 : ℝ) pC10a pC10b).2 = _
      rw [e1]; rfl
    rw [s1]
    have s2 : updPair (1 : ℝ) [⟨⟨45, 50⟩, ⟨0, 0⟩, 5, ⟨1, 1, 1, 1⟩, [], 0, 0⟩,
        ⟨⟨55, 50⟩, ⟨0, 0⟩, 5, ⟨1, 1, 1, 1⟩, [], 0, 0⟩, pC10c] (0, 2) =
        [⟨⟨45, 50⟩, ⟨0, 0⟩, 5, ⟨1, 1, 1, 1⟩, [], 0, 0⟩,
         ⟨⟨55, 50⟩, ⟨0, 0⟩, 5, ⟨1, 1, 1, 1⟩, [], 0, 0⟩, pC10c] := by
      show (([⟨⟨45, 50⟩, ⟨0, 0⟩, 5, ⟨1, 1, 1, 1⟩, [], 0, 0⟩,
        ⟨⟨55, 50⟩, ⟨0, 0⟩, 5, ⟨1, 1, 1, 1⟩, [], 0, 0⟩, pC10c].set 0
          (resolvePair (1 : ℝ) ⟨⟨45, 50⟩, ⟨0, 0⟩, 5, ⟨1, 1, 1, 1⟩, [], 0, 0⟩ pC10c).1).set 2
          (resolvePair (1 : ℝ) ⟨⟨45, 50⟩, ⟨0, 0⟩, 5, ⟨1, 1, 1, 1⟩, [], 0, 0⟩ pC10c).2) = _
      rw [e2]; rfl
    rw [s2]
    show (([⟨⟨45, 50⟩, ⟨0, 0⟩, 5, ⟨1, 1, 1, 1⟩, [], 0, 0⟩,
      ⟨⟨55, 50⟩, ⟨0, 0⟩, 5, ⟨1, 1, 1, 1⟩, [], 0, 0⟩, pC10c].set 1
        (resolvePair (1 : ℝ) ⟨⟨55, 50⟩, ⟨0, 0⟩, 5, ⟨1, 1, 1, 1⟩, [], 0, 0⟩ pC10c).1).set 2
        (resolvePair (1 : ℝ) ⟨⟨55, 50⟩, ⟨0, 0⟩, 5, ⟨1, 1, 1, 1⟩, [], 0, 0⟩ pC10c).2) = _
    rw [e3]; rfl
  have h3 : ((update simC10 0).particles.map fun q => (q.pos, q.vel)) =
      [((⟨45, 50⟩ : Vec2), (⟨0, 0⟩ : Vec2)), ((⟨55, 50⟩ : Vec2), (⟨0, 0⟩ : Vec2)),
       ((⟨5, 5⟩ : Vec2), (⟨0, 0⟩ : Vec2))] := by
    rw [hzero simC10]
    show ((collisionPass (1 : ℝ) [pC10a, pC10b, pC10c]).map
      (finalizeStep 100 100 1 0 (min (0 : ℝ) MAX_DT) false)).map (fun q => (q.pos, q.vel)) = _
    rw [hcp, hmin]
    norm_num [finalizeStep, clampStep, wallStep, dragStep, TINY_SPEED, pC10c,
      abs_of_nonneg, abs_of_nonpos]
  refine ⟨hzero s, ?_, h3⟩
  intro h
  rw [h] at h3
  simp only [simC10, pC10a, pC10b, pC10c, List.map_cons, List.map_nil,
    List.cons.injEq, Prod.mk.injEq, Vec2.mk.injEq] at h3
  norm_num at h3

end

end Orb
